import Mathlib

/-!
Verification development for the authenticated hierarchical task-management
core (account directory, identity token codec, generic resource worker, and
the HTTP handler layer of `src/api/api.cpp`).

Pure fragments of the C++ source are embedded shallowly as Lean functions.
Components of the repository whose implementation files are not available
(the key-value store, the worker bodies, the account directory, the string
utilities and the external JWT / base64 libraries) are modelled from the
specification; each such definition carries a doc comment saying so.
-/

/-- Modelled from the spec: `Common::Split` from `common/utils.h` (absent from
src).  Standard single-character delimiter split on a character list: the
result is the list of maximal delimiter-free segments, and is never empty
(the empty input yields one empty segment). -/
def splitChars (sep : Char) : List Char → List (List Char)
  | [] => [[]]
  | c :: cs =>
    if c = sep then [] :: splitChars sep cs
    else
      match splitChars sep cs with
      | [] => [[c]]
      | t :: ts => (c :: t) :: ts

/-- Modelled from the spec: `Common::Split` lifted to `String`. -/
def commonSplit (sep : Char) (s : String) : List String :=
  (splitChars sep s.data).map (fun cs => ⟨cs⟩)

/-- Decimal value of a digit character, inverse of `Nat.digitChar` below 10. -/
def digitVal (c : Char) : Nat := c.toNat - 48

/-- Numeric value of a big-endian decimal digit string, used to show that
`Nat.repr` is injective (the collision-rename suffixes are all distinct). -/
def valOfDigits : List Char → Nat
  | [] => 0
  | c :: cs => digitVal c * 10 ^ cs.length + valOfDigits cs

/-- From `src/tasks/taskContent.h`: a task record.  Default-constructed
fields are empty strings, as in the C++ default constructor. -/
structure TaskContent where
  name : String := ""
  content : String := ""
  date : String := ""
deriving DecidableEq

/-- From `src/tasks/taskContent.h`: `LoseKey` — the record has no key. -/
def TaskContent.LoseKey (c : TaskContent) : Bool := c.name = ""

/-- From `src/tasks/taskContent.h`: `IsEmpty`. -/
def TaskContent.IsEmpty (c : TaskContent) : Bool :=
  c.name = "" && c.content = "" && c.date = ""

/-- Modelled from the spec: `TasklistContent` (`api/tasklistContent.h` is
absent from src); per §3 it has exactly the shape of `TaskContent`. -/
abbrev TasklistContent := TaskContent

/-- Modelled from the spec: `RequestData` (`api/requestData.h` is absent from
src) — the ephemeral scope value `{user_key, tasklist_key, task_key}`. -/
structure RequestData where
  user_key : String := ""
  tasklist_key : String := ""
  task_key : String := ""
deriving DecidableEq

/-- Modelled from the spec: the result-code taxonomy of §7 (`db/DB.h` with
the `returnCode` enum is absent from src). -/
inductive returnCode where
  | SUCCESS
  | INVALID_INPUT
  | UNAUTHENTICATED
  | NOT_FOUND
  | CONFLICT
  | IMMUTABLE_FIELD
  | INTERNAL
deriving DecidableEq

/-- Modelled from the spec: the flat key-value store (§6), restricted to one
worker instantiation.  A derived key is the structural combination of the
owner key and the child key; since the reserved separator may appear in
neither component, the concatenation is injective and is modelled as the
pair `(owner, child)`.  Values are content records. -/
abbrev Store (α : Type) := List ((α × String) × TaskContent)

/-- Modelled from the spec: store existence probe (`KeyExist`). -/
def existsKey {α : Type} [DecidableEq α] : Store α → α × String → Bool
  | [], _ => false
  | e :: rest, k => if e.1 = k then true else existsKey rest k

/-- Modelled from the spec: store read (`Get(key) -> value|absent`). -/
def storeGet {α : Type} [DecidableEq α] : Store α → α × String → Option TaskContent
  | [], _ => none
  | e :: rest, k => if e.1 = k then some e.2 else storeGet rest k

/-- Modelled from the spec: store write (`Put(key, value)`), overwriting an
existing entry in place or appending a new one. -/
def storePut {α : Type} [DecidableEq α] : Store α → α × String → TaskContent → Store α
  | [], k, v => [(k, v)]
  | e :: rest, k, v => if e.1 = k then (k, v) :: rest else e :: storePut rest k v

/-- Modelled from the spec: store delete. -/
def storeDelete {α : Type} [DecidableEq α] : Store α → α × String → Store α
  | [], _ => []
  | e :: rest, k => if e.1 = k then rest else e :: storeDelete rest k

/-- From `src/tasklists/tasklistsWorker.h` (declaration; body absent from
src): `Rename` appends the numeric suffix to the requested name, producing
the probe sequence `name-1`, `name-2`, … of §4.3. -/
def Rename (name : String) (suffix : Nat) : String :=
  name ++ "-" ++ Nat.repr suffix

/-- Candidate name for probe index `i`: the requested name itself at index
0, then `Rename name i` (monotonic linear probing starting at suffix 1). -/
def candidate (name : String) : Nat → String
  | 0 => name
  | k + 1 => Rename name (k + 1)

/-- Linear search for the first index at or after `i` that `isFree`
accepts, with explicit fuel; returns `i + fuel` if none is found. -/
def findFreeSuffix (isFree : Nat → Bool) : Nat → Nat → Nat
  | 0, i => i
  | fuel + 1, i => if isFree i then i else findFreeSuffix isFree fuel (i + 1)

/-- Modelled from the spec: the probe index assigned by `Create`'s
collision-resolution loop (§4.3) — the least `i` whose candidate name is
free under `owner`.  Fuel `s.length + 1` always suffices (pigeonhole,
proved below). -/
def assignedIdx {α : Type} [DecidableEq α] (s : Store α) (owner : α) (name : String) : Nat :=
  findFreeSuffix (fun i => !existsKey s (owner, candidate name i)) (s.length + 1) 0

/-- Modelled from the spec: generic worker `Query` (§4.3) — requires a
non-empty child key, `NOT_FOUND` on an absent derived key, otherwise the
stored record. -/
def workerQuery {α : Type} [DecidableEq α] (s : Store α) (owner : α) (child : String) :
    returnCode × TaskContent :=
  if child = "" then (returnCode.INVALID_INPUT, {})
  else
    match storeGet s (owner, child) with
    | none => (returnCode.NOT_FOUND, {})
    | some r => (returnCode.SUCCESS, r)

/-- Modelled from the spec: generic worker `Create` (§4.3).  The requested
child name is `c.name`; a record without a key (`LoseKey`) is invalid and
never persisted (§3); on collision the worker probes `name`, `name-1`,
`name-2`, … and stores the record under the first free candidate, writing
the accepted name back into the record's `name` field and returning it. -/
def workerCreate {α : Type} [DecidableEq α] (s : Store α) (owner : α) (c : TaskContent) :
    returnCode × String × Store α :=
  if c.name = "" then (returnCode.INVALID_INPUT, "", s)
  else
    let n := candidate c.name (assignedIdx s owner c.name)
    (returnCode.SUCCESS, n, storePut s (owner, n) { c with name := n })

/-- Modelled from the spec: generic worker `Revise` (§4.3) — `NOT_FOUND` if
the child key does not exist; otherwise only the whitelisted fields
`content` and `date` are merged into the stored record.  The handler
(`api.cpp`) encodes an absent patch field as the empty string, so an empty
field means "retain the previous stored value"; the `name` field of the
stored record is never touched. -/
def workerRevise {α : Type} [DecidableEq α] (s : Store α) (owner : α) (child : String)
    (c : TaskContent) : returnCode × Store α :=
  match storeGet s (owner, child) with
  | none => (returnCode.NOT_FOUND, s)
  | some r =>
    let merged : TaskContent :=
      { r with
        content := if c.content = "" then r.content else c.content
        date := if c.date = "" then r.date else c.date }
    (returnCode.SUCCESS, storePut s (owner, child) merged)

/-- Modelled from the spec: generic worker `Delete` (§4.3). -/
def workerDelete {α : Type} [DecidableEq α] (s : Store α) (owner : α) (child : String) :
    returnCode × Store α :=
  if existsKey s (owner, child) then (returnCode.SUCCESS, storeDelete s (owner, child))
  else (returnCode.NOT_FOUND, s)

/-- Modelled from the spec: generic worker child-name listing (§4.3). -/
def workerGetAll {α : Type} [DecidableEq α] (s : Store α) (owner : α) :
    returnCode × List String :=
  (returnCode.SUCCESS, (s.filter (fun e => decide (e.1.1 = owner))).map (fun e => e.1.2))

/-- Modelled from the spec: `TasksWorker::Query` — the task instantiation is
scoped by `(user, tasklist)`; the task-list name must be non-empty or the
call fails before any store access (§6, §4.3). -/
def tasksWorkerQuery (s : Store (String × String)) (d : RequestData) :
    returnCode × TaskContent :=
  if d.tasklist_key = "" then (returnCode.INVALID_INPUT, {})
  else workerQuery s (d.user_key, d.tasklist_key) d.task_key

/-- Modelled from the spec: `TasksWorker::Create` (same fail-fast guard). -/
def tasksWorkerCreate (s : Store (String × String)) (d : RequestData) (c : TaskContent) :
    returnCode × String × Store (String × String) :=
  if d.tasklist_key = "" then (returnCode.INVALID_INPUT, "", s)
  else workerCreate s (d.user_key, d.tasklist_key) c

/-- Modelled from the spec: `TasksWorker::Revise` (same fail-fast guard). -/
def tasksWorkerRevise (s : Store (String × String)) (d : RequestData) (c : TaskContent) :
    returnCode × Store (String × String) :=
  if d.tasklist_key = "" then (returnCode.INVALID_INPUT, s)
  else workerRevise s (d.user_key, d.tasklist_key) d.task_key c

/-- Modelled from the spec: `TasksWorker::Delete` (same fail-fast guard). -/
def tasksWorkerDelete (s : Store (String × String)) (d : RequestData) :
    returnCode × Store (String × String) :=
  if d.tasklist_key = "" then (returnCode.INVALID_INPUT, s)
  else workerDelete s (d.user_key, d.tasklist_key) d.task_key

/-- Modelled from the spec: `TasksWorker::GetAllTasksName` (same guard). -/
def tasksWorkerGetAll (s : Store (String × String)) (d : RequestData) :
    returnCode × List String :=
  if d.tasklist_key = "" then (returnCode.INVALID_INPUT, [])
  else workerGetAll s (d.user_key, d.tasklist_key)

/-- The JSON body of a request as the handlers of `api.cpp` probe it: each
relevant field is present or absent (design note §9). -/
structure JsonBody where
  name : Option String := none
  content : Option String := none
  date : Option String := none
deriving DecidableEq

/-- An HTTP response as assembled by `API_RETURN_HTTP_RESP` in `api.cpp`:
a status code, a message, and the optional output values the individual
handlers attach. -/
structure HttpResp where
  status : Nat
  msg : String
  name : Option String := none
  data : List String := []
  record : Option TaskContent := none
  token : Option String := none
deriving DecidableEq

/-- From `src/api/api.cpp` (`API_CHECK_REQUEST_TOKEN`): the uniform
authentication-failure response. -/
def authFailResp : HttpResp := { status := 500, msg := "failed basic auth" }

/-- Modelled from the spec: the claims a JWT embeds — the account email and
the absolute expiry timestamp (§4.1). -/
structure JwtClaims where
  email : String
  exp : Nat
deriving DecidableEq

/-- A simple executable string hash standing in for the HMAC of the external
JWT library; only its functional dependence on secret and claims matters. -/
def strHash (s : String) : Nat :=
  s.data.foldl (fun a c => a * 31 + c.toNat) 7

/-- Modelled from the spec: the signature the external JWT library (HS256)
attaches under a given secret. -/
def jwtSign (secret : String) (c : JwtClaims) : Nat :=
  strHash (secret ++ c.email) * 4096 + c.exp % 4096

/-- Modelled from the spec: a parsed signed token — claims plus signature.
A malformed token string is one the parser rejects (`none` below). -/
structure JwtToken where
  claims : JwtClaims
  sig : Nat
deriving DecidableEq

/-- From `src/api/api.cpp` (`DecodeEmailFromToken`), with the external
`jwt::decode` modelled from the spec (§4.1 `Resolve`): a malformed token,
signature mismatch, or expiry yields the empty string; otherwise the
embedded email is returned.  The function is total — it never raises. -/
def decodeEmailFromToken (secret : String) (now : Nat) (tok : Option JwtToken) : String :=
  match tok with
  | none => ""
  | some t =>
    if t.sig = jwtSign secret t.claims ∧ now < t.claims.exp then t.claims.email else ""

/-- From `src/api/api.cpp` (`DecodeTokenFromBasicAuth`): split the header on
a blank, require exactly the two parts `"Basic" value`, base64-decode the
value (`b64`, external), split the result on a colon and return the first
segment; any malformed shape yields the empty string. -/
def decodeTokenFromBasicAuth (b64 : String → String) (auth : String) : String :=
  match commonSplit ' ' auth with
  | [scheme, value] =>
    if scheme = "Basic" then
      match commonSplit ':' (b64 value) with
      | [] => ""
      | t :: _ => t
    else ""
  | _ => ""

/-- From `src/api/api.cpp` (`API_CHECK_REQUEST_TOKEN`): a missing
`Authorization` header, or a token chain that resolves to the empty email,
yields the uniform authentication-failure response; otherwise the resolved
email.  `parse` stands for the external JWT string parser. -/
def checkRequestToken (parse : String → Option JwtToken) (b64 : String → String)
    (secret : String) (now : Nat) (header : Option String) : Except HttpResp String :=
  match header with
  | none => .error authFailResp
  | some h =>
    let email := decodeEmailFromToken secret now (parse (decodeTokenFromBasicAuth b64 h))
    if email = "" then .error authFailResp else .ok email

/-- Modelled from the spec: an account record (`users/users.h` is absent
from src) — `{name, email, password}` (§3). -/
structure UserInfo where
  name : String := ""
  email : String := ""
  passwd : String := ""
deriving DecidableEq

/-- Modelled from the spec: `Users::DuplicatedEmail` — existence probe on
the email (§4.2). -/
def DuplicatedEmail (users : List UserInfo) (u : UserInfo) : Bool :=
  users.any (fun x => x.email = u.email)

/-- Modelled from the spec: `Users::Create` — persists the account (§4.2);
the duplicate-email gate is in the caller (`api.cpp` line 184). -/
def usersCreate (users : List UserInfo) (u : UserInfo) : Bool × List UserInfo :=
  (true, users ++ [u])

/-- Modelled from the spec: `Users::Validate` — succeeds exactly when some
stored account carries this email with this password (§4.2). -/
def usersValidate (users : List UserInfo) (u : UserInfo) : Bool :=
  users.any (fun x => x.email = u.email && x.passwd = u.passwd)

/-- Modelled from the spec: `EncodeTokenFromEmail` of `api.cpp` with the
external JWT library abstracted to a concrete executable encoding. -/
def encodeTokenFromEmail (secret email : String) (now ttl : Nat) : String :=
  email ++ "." ++ Nat.repr (now + ttl) ++ "." ++ Nat.repr (strHash (secret ++ email))

/-- From `src/api/api.cpp` (`UsersRegister`, after basic-auth decoding):
empty email or password fails; a body without a `name` field fails; a
duplicated email fails with its own message and leaves the directory
unchanged; otherwise the account is persisted. -/
def usersRegisterH (users : List UserInfo) (email passwd : String) (body : Option JsonBody) :
    HttpResp × List UserInfo :=
  if email = "" ∨ passwd = "" then
    ({ status := 500, msg := "failed no email or password" }, users)
  else
    match body with
    | none => ({ status := 500, msg := "failed body format error" }, users)
    | some b =>
      match b.name with
      | none => ({ status := 500, msg := "failed body format error" }, users)
      | some nm =>
        if DuplicatedEmail users { email := email } then
          ({ status := 500, msg := "failed duplicated email" }, users)
        else
          let created := usersCreate users { name := nm, email := email, passwd := passwd }
          if created.1 then ({ status := 200, msg := "success" }, created.2)
          else ({ status := 500, msg := "failed create user" }, users)

/-- From `src/api/api.cpp` (`UsersLogin`, after basic-auth decoding):
empty email or password fails; a failed validation yields the single
uniform failure response regardless of its cause; success issues a token. -/
def usersLoginH (users : List UserInfo) (secret : String) (now : Nat)
    (email passwd : String) : HttpResp :=
  if email = "" ∨ passwd = "" then
    { status := 500, msg := "failed no email or password" }
  else if usersValidate users { email := email, passwd := passwd } then
    let token := encodeTokenFromEmail secret email now 3600
    if token = "" then { status := 500, msg := "failed create token" }
    else { status := 200, msg := "success", token := some token }
  else { status := 500, msg := "failed user login" }

/-- From `src/api/api.cpp` (`TaskListsGet`, lines 263-272): the mapping from
the worker's result to the HTTP response — every non-success result code is
reported as the one identical internal-error response. -/
def taskListsGetRespond (rc : returnCode) (c : TasklistContent) : HttpResp :=
  if rc ≠ returnCode.SUCCESS then { status := 500, msg := "failed internal server error" }
  else { status := 200, msg := "success", record := some c }

/-- From `src/api/api.cpp` (`TaskListsGet`, after authentication). -/
def taskListsGetH (s : Store String) (user tasklistKey : String) : HttpResp :=
  let q := workerQuery s user tasklistKey
  taskListsGetRespond q.1 q.2

/-- From `src/api/api.cpp` (`TaskListsCreate`, after authentication): the
body must carry a `name`; the worker assigns the (possibly renamed) name,
which is returned to the caller in the response. -/
def taskListsCreateH (s : Store String) (user : String) (body : Option JsonBody) :
    HttpResp × Store String :=
  match body with
  | none => ({ status := 500, msg := "failed body format error" }, s)
  | some b =>
    match b.name with
    | none => ({ status := 500, msg := "failed body format error" }, s)
    | some nm =>
      let c : TasklistContent :=
        { name := nm, content := b.content.getD "", date := b.date.getD "" }
      let r := workerCreate s user c
      if r.1 ≠ returnCode.SUCCESS then
        ({ status := 500, msg := "failed create tasklist" }, s)
      else
        ({ status := 200, msg := "success", name := some r.2.1 }, r.2.2)

/-- From `src/api/api.cpp` (`TaskListsUpdate`, lines 275-307, after
authentication): an unparsable body fails; a patch whose `name` differs
from the addressed task-list key fails with the explicit immutability
message before the worker is invoked; otherwise only `content` and `date`
are carried into the worker's merge. -/
def taskListsUpdateH (s : Store String) (user tasklistKey : String)
    (body : Option JsonBody) : HttpResp × Store String :=
  match body with
  | none => ({ status := 500, msg := "failed request body format error" }, s)
  | some b =>
    if b.name.isSome ∧ b.name ≠ some tasklistKey then
      ({ status := 500, msg := "failed tasklist name can not be changed" }, s)
    else
      let c : TasklistContent :=
        { name := "", content := b.content.getD "", date := b.date.getD "" }
      let r := workerRevise s user tasklistKey c
      if r.1 ≠ returnCode.SUCCESS then
        ({ status := 500, msg := "failed update tasklist" }, s)
      else ({ status := 200, msg := "success" }, r.2)

/-- From `src/api/api.cpp` (`TaskListsDelete`, after authentication). -/
def taskListsDeleteH (s : Store String) (user tasklistKey : String) :
    HttpResp × Store String :=
  let r := workerDelete s user tasklistKey
  if r.1 ≠ returnCode.SUCCESS then
    ({ status := 500, msg := "failed delete tasklist" }, s)
  else ({ status := 200, msg := "success" }, r.2)

/-- From `src/api/api.cpp` (`TasksGet`, lines 373-399, after
authentication): an empty task-list name fails fast before the worker is
consulted. -/
def tasksGetH (s : Store (String × String)) (user tasklistName taskName : String) : HttpResp :=
  if tasklistName = "" then { status := 500, msg := "failed need tasklist name" }
  else
    let q := tasksWorkerQuery s
      { user_key := user, tasklist_key := tasklistName, task_key := taskName }
    if q.1 ≠ returnCode.SUCCESS then { status := 500, msg := "failed internal server error" }
    else { status := 200, msg := "success", record := some q.2 }

/-- From `src/api/api.cpp` (`TasksAll`, lines 352-371, after
authentication): no handler-level guard — the worker's own scope check is
the only gate. -/
def tasksAllH (s : Store (String × String)) (user tasklistName : String) : HttpResp :=
  let r := tasksWorkerGetAll s { user_key := user, tasklist_key := tasklistName }
  if r.1 ≠ returnCode.SUCCESS then { status := 500, msg := "failed internal server error" }
  else { status := 200, msg := "success", data := r.2 }

/-- From `src/api/api.cpp` (`TasksUpdate`, lines 401-439, after
authentication): the empty-task-list guard precedes body parsing; the
`name` immutability guard precedes the worker call. -/
def tasksUpdateH (s : Store (String × String)) (user tasklistName taskName : String)
    (body : Option JsonBody) : HttpResp × Store (String × String) :=
  if tasklistName = "" then ({ status := 500, msg := "failed need tasklist name" }, s)
  else
    match body with
    | none => ({ status := 500, msg := "failed request body format error" }, s)
    | some b =>
      if b.name.isSome ∧ b.name ≠ some taskName then
        ({ status := 500, msg := "failed task name can not be changed" }, s)
      else
        let c : TaskContent :=
          { name := "", content := b.content.getD "", date := b.date.getD "" }
        let r := tasksWorkerRevise s
          { user_key := user, tasklist_key := tasklistName, task_key := taskName } c
        if r.1 ≠ returnCode.SUCCESS then
          ({ status := 500, msg := "failed internal server error" }, s)
        else ({ status := 200, msg := "success" }, r.2)

/-- From `src/api/api.cpp` (`TasksDelete`, lines 441-460, after
authentication): empty task-list guard, then the worker delete. -/
def tasksDeleteH (s : Store (String × String)) (user tasklistName taskName : String) :
    HttpResp × Store (String × String) :=
  if tasklistName = "" then ({ status := 500, msg := "failed need tasklist name" }, s)
  else
    let r := tasksWorkerDelete s
      { user_key := user, tasklist_key := tasklistName, task_key := taskName }
    if r.1 ≠ returnCode.SUCCESS then
      ({ status := 500, msg := "failed internal server error" }, s)
    else ({ status := 200, msg := "success" }, r.2)

/-- From `src/api/api.cpp` (`TasksCreate`, lines 462-491, after
authentication): no handler-level task-list guard — body parsing first,
then the worker, whose scope check is the only empty-key gate. -/
def tasksCreateH (s : Store (String × String)) (user tasklistName : String)
    (body : Option JsonBody) : HttpResp × Store (String × String) :=
  match body with
  | none => ({ status := 500, msg := "failed body format error" }, s)
  | some b =>
    match b.name with
    | none => ({ status := 500, msg := "failed body format error" }, s)
    | some nm =>
      let c : TaskContent :=
        { name := nm, content := b.content.getD "", date := b.date.getD "" }
      let r := tasksWorkerCreate s
        { user_key := user, tasklist_key := tasklistName, task_key := nm } c
      if r.1 ≠ returnCode.SUCCESS then
        ({ status := 500, msg := "failed create tasklist" }, s)
      else ({ status := 200, msg := "success", name := some r.2.1 }, r.2.2)

/-- The name-equals-key invariant of §3: every stored record's `name` field
equals the child component of the key it is stored under. -/
def NameKeyInv {α : Type} (s : Store α) : Prop :=
  ∀ e ∈ s, e.2.name = e.1.2

/-- Store states reachable from the empty store through worker operations
(every handler touches the store only through these, or not at all). -/
inductive Reachable {α : Type} [DecidableEq α] : Store α → Prop
  | init : Reachable []
  | create (s : Store α) (o : α) (c : TaskContent) :
      Reachable s → Reachable (workerCreate s o c).2.2
  | revise (s : Store α) (o : α) (k : String) (c : TaskContent) :
      Reachable s → Reachable (workerRevise s o k c).2
  | delete (s : Store α) (o : α) (k : String) :
      Reachable s → Reachable (workerDelete s o k).2

theorem digitVal_digitChar {m : Nat} (h : m < 10) : digitVal (Nat.digitChar m) = m := by
  interval_cases m <;> rfl

theorem valOfDigits_toDigitsCore (fuel : Nat) :
    ∀ (n : Nat) (ds : List Char), n < 10 ^ fuel →
      valOfDigits (Nat.toDigitsCore 10 fuel n ds) = n * 10 ^ ds.length + valOfDigits ds := by
  induction fuel with
  | zero =>
    intro n ds h
    simp only [pow_zero, Nat.lt_one_iff] at h
    subst h
    simp [Nat.toDigitsCore]
  | succ fuel ih =>
    intro n ds h
    simp only [Nat.toDigitsCore]
    by_cases h10 : n / 10 = 0
    · have hn : n < 10 := by omega
      simp only [h10, if_pos rfl, valOfDigits]
      rw [digitVal_digitChar (Nat.mod_lt n (by norm_num))]
      rw [Nat.mod_eq_of_lt hn]
    · rw [if_neg h10]
      have hdiv : n / 10 < 10 ^ fuel := by
        rw [Nat.div_lt_iff_lt_mul (by norm_num : 0 < 10)]
        calc n < 10 ^ (fuel + 1) := h
          _ = 10 ^ fuel * 10 := by rw [pow_succ]
      rw [ih (n / 10) (Nat.digitChar (n % 10) :: ds) hdiv]
      simp only [valOfDigits, List.length_cons]
      rw [digitVal_digitChar (Nat.mod_lt n (by norm_num))]
      have key : n / 10 * 10 ^ (ds.length + 1) + n % 10 * 10 ^ ds.length
          = n * 10 ^ ds.length := by
        rw [pow_succ]
        calc n / 10 * (10 ^ ds.length * 10) + n % 10 * 10 ^ ds.length
            = (10 * (n / 10) + n % 10) * 10 ^ ds.length := by ring
          _ = n * 10 ^ ds.length := by rw [Nat.div_add_mod]
      rw [← key]
      ring

theorem valOfDigits_toDigits (n : Nat) : valOfDigits (Nat.toDigits 10 n) = n := by
  have h : n < 10 ^ (n + 1) := by
    calc n < 10 ^ n := Nat.lt_pow_self (by norm_num) n
      _ ≤ 10 ^ (n + 1) := Nat.pow_le_pow_right (by norm_num) (Nat.le_succ n)
  rw [Nat.toDigits, valOfDigits_toDigitsCore (n + 1) n [] h]
  simp [valOfDigits]

theorem natRepr_injective : Function.Injective Nat.repr := by
  intro m n h
  have hd : Nat.toDigits 10 m = Nat.toDigits 10 n := by
    have h2 := congrArg String.data h
    simpa [Nat.repr, List.asString] using h2
  have h3 := congrArg valOfDigits hd
  rwa [valOfDigits_toDigits, valOfDigits_toDigits] at h3

theorem stringDataAppend (a b : String) : (a ++ b).data = a.data ++ b.data := rfl

theorem stringDataInj {a b : String} (h : a.data = b.data) : a = b := by
  cases a
  cases b
  exact congrArg String.mk h

theorem candidate_injective (name : String) : Function.Injective (candidate name) := by
  intro i j h
  match i, j with
  | 0, 0 => rfl
  | 0, k + 1 =>
    exfalso
    have h2 := congrArg (fun s => s.data.length) h
    simp [candidate, Rename, stringDataAppend] at h2
  | k + 1, 0 =>
    exfalso
    have h2 := congrArg (fun s => s.data.length) h
    simp [candidate, Rename, stringDataAppend] at h2
  | i + 1, j + 1 =>
    have hd := congrArg String.data h
    simp only [candidate, Rename, stringDataAppend, List.append_assoc] at hd
    have hdr : (Nat.repr (i + 1)).data = (Nat.repr (j + 1)).data := by
      have h5 := List.append_cancel_left hd
      simpa using List.append_cancel_left h5
    have := natRepr_injective (stringDataInj hdr)
    omega

theorem existsKey_true_mem {α : Type} [DecidableEq α] (s : Store α) (k : α × String)
    (h : existsKey s k = true) : k ∈ s.map Prod.fst := by
  induction s with
  | nil => simp [existsKey] at h
  | cons e rest ih =>
    simp only [existsKey] at h
    simp only [List.map_cons, List.mem_cons]
    by_cases he : e.1 = k
    · exact Or.inl he.symm
    · rw [if_neg he] at h
      exact Or.inr (ih h)

theorem exists_free_candidate {α : Type} [DecidableEq α] (s : Store α) (o : α) (name : String) :
    ∃ i, i ≤ s.length ∧ existsKey s (o, candidate name i) = false := by
  by_contra hc
  push_neg at hc
  have hall : ∀ i ≤ s.length, (o, candidate name i) ∈ s.map Prod.fst := by
    intro i hi
    have h1 := hc i hi
    refine existsKey_true_mem s _ ?_
    revert h1
    cases existsKey s (o, candidate name i) <;> simp
  have hnodup : ((List.range (s.length + 1)).map
      (fun i => (o, candidate name i))).Nodup := by
    refine List.Nodup.map ?_ (List.nodup_range _)
    intro a b hab
    have h2 := congrArg Prod.snd hab
    exact candidate_injective name h2
  have hsub : ∀ x ∈ (List.range (s.length + 1)).map (fun i => (o, candidate name i)),
      x ∈ s.map Prod.fst := by
    intro x hx
    simp only [List.mem_map, List.mem_range] at hx
    obtain ⟨i, hi, rfl⟩ := hx
    exact hall i (by omega)
  have h1 : ((List.range (s.length + 1)).map
      (fun i => (o, candidate name i))).toFinset.card = s.length + 1 := by
    rw [List.toFinset_card_of_nodup hnodup]
    simp
  have h2 : ((List.range (s.length + 1)).map
      (fun i => (o, candidate name i))).toFinset ⊆ (s.map Prod.fst).toFinset := by
    intro x hx
    rw [List.mem_toFinset] at hx ⊢
    exact hsub x hx
  have h3 := Finset.card_le_card h2
  have h4 := (s.map Prod.fst).toFinset_card_le
  simp only [List.length_map] at h4
  omega

theorem findFreeSuffix_spec (isFree : Nat → Bool) :
    ∀ (fuel i : Nat), (∃ j, i ≤ j ∧ j < i + fuel ∧ isFree j = true) →
      isFree (findFreeSuffix isFree fuel i) = true ∧
      ∀ m, i ≤ m → m < findFreeSuffix isFree fuel i → isFree m = false := by
  intro fuel
  induction fuel with
  | zero =>
    intro i h
    obtain ⟨j, h1, h2, _⟩ := h
    omega
  | succ fuel ih =>
    intro i h
    obtain ⟨j, h1, h2, h3⟩ := h
    simp only [findFreeSuffix]
    by_cases hf : isFree i = true
    · rw [if_pos hf]
      exact ⟨hf, fun m hm1 hm2 => by omega⟩
    · have hfi : isFree i = false := by
        revert hf
        cases isFree i <;> simp
      rw [if_neg hf]
      have hji : j ≠ i := by
        intro heq
        rw [heq] at h3
        rw [h3] at hfi
        simp at hfi
      obtain ⟨ha, hb⟩ := ih (i + 1) ⟨j, by omega, by omega, h3⟩
      refine ⟨ha, ?_⟩
      intro m hm1 hm2
      rcases Nat.eq_or_lt_of_le hm1 with heq | hlt
      · exact heq ▸ hfi
      · exact hb m (by omega) hm2

theorem assignedIdx_spec {α : Type} [DecidableEq α] (s : Store α) (o : α) (name : String) :
    existsKey s (o, candidate name (assignedIdx s o name)) = false ∧
    ∀ j < assignedIdx s o name, existsKey s (o, candidate name j) = true := by
  obtain ⟨i, hi, hfree⟩ := exists_free_candidate s o name
  have hex : ∃ j, 0 ≤ j ∧ j < 0 + (s.length + 1) ∧
      (!existsKey s (o, candidate name j)) = true := ⟨i, by omega, by omega, by simp [hfree]⟩
  obtain ⟨h1, h3⟩ := findFreeSuffix_spec _ (s.length + 1) 0 hex
  constructor
  · revert h1
    unfold assignedIdx
    cases existsKey s (o, candidate name (findFreeSuffix
      (fun i => !existsKey s (o, candidate name i)) (s.length + 1) 0)) <;> simp
  · intro j hj
    have h5 := h3 j (by omega) hj
    revert h5
    cases existsKey s (o, candidate name j) <;> simp

theorem storeGet_storePut_same {α : Type} [DecidableEq α] (s : Store α) (k : α × String)
    (v : TaskContent) : storeGet (storePut s k v) k = some v := by
  induction s with
  | nil => simp [storePut, storeGet]
  | cons e rest ih =>
    by_cases he : e.1 = k <;> simp [storePut, storeGet, he, ih]

theorem storeGet_storePut_ne {α : Type} [DecidableEq α] (s : Store α) (k k' : α × String)
    (v : TaskContent) (h : k' ≠ k) : storeGet (storePut s k v) k' = storeGet s k' := by
  induction s with
  | nil => simp [storePut, storeGet, Ne.symm h]
  | cons e rest ih =>
    by_cases he : e.1 = k
    · have hek : e.1 ≠ k' := by
        rw [he]
        exact Ne.symm h
      simp [storePut, storeGet, he, hek, Ne.symm h]
    · simp [storePut, storeGet, he, ih]

theorem mem_storePut {α : Type} [DecidableEq α] (s : Store α) (k : α × String)
    (v : TaskContent) : ∀ e ∈ storePut s k v, e = (k, v) ∨ e ∈ s := by
  induction s with
  | nil =>
    intro e he
    simp only [storePut, List.mem_singleton] at he
    exact Or.inl he
  | cons f rest ih =>
    intro e he
    simp only [storePut] at he
    by_cases hf : f.1 = k
    · rw [if_pos hf] at he
      rcases List.mem_cons.mp he with h1 | h1
      · exact Or.inl h1
      · exact Or.inr (List.mem_cons_of_mem f h1)
    · rw [if_neg hf] at he
      rcases List.mem_cons.mp he with h1 | h1
      · exact Or.inr (h1 ▸ List.mem_cons_self f rest)
      · rcases ih e h1 with h2 | h2
        · exact Or.inl h2
        · exact Or.inr (List.mem_cons_of_mem f h2)

theorem mem_storeDelete {α : Type} [DecidableEq α] (s : Store α) (k : α × String) :
    ∀ e ∈ storeDelete s k, e ∈ s := by
  induction s with
  | nil => simp [storeDelete]
  | cons f rest ih =>
    intro e he
    simp only [storeDelete] at he
    by_cases hf : f.1 = k
    · rw [if_pos hf] at he
      exact List.mem_cons_of_mem f he
    · rw [if_neg hf] at he
      rcases List.mem_cons.mp he with h1 | h1
      · exact h1 ▸ List.mem_cons_self f rest
      · exact List.mem_cons_of_mem f (ih e h1)

theorem storeGet_mem {α : Type} [DecidableEq α] (s : Store α) (k : α × String)
    (r : TaskContent) (h : storeGet s k = some r) : (k, r) ∈ s := by
  induction s with
  | nil => simp [storeGet] at h
  | cons e rest ih =>
    simp only [storeGet] at h
    by_cases he : e.1 = k
    · rw [if_pos he] at h
      have h2 : e.2 = r := Option.some.inj h
      cases e with
      | mk k2 v2 =>
        cases he
        cases h2
        exact List.mem_cons_self _ _
    · rw [if_neg he] at h
      exact List.mem_cons_of_mem e (ih h)

theorem splitChars_head (sep : Char) (cs : List Char) :
    ∃ ts, splitChars sep cs = cs.takeWhile (fun c => c ≠ sep) :: ts := by
  induction cs with
  | nil => exact ⟨[], rfl⟩
  | cons c cs ih =>
    by_cases hc : c = sep
    · refine ⟨splitChars sep cs, ?_⟩
      simp [splitChars, hc, List.takeWhile_cons]
    · obtain ⟨ts, hts⟩ := ih
      refine ⟨ts, ?_⟩
      simp [splitChars, hc, hts, List.takeWhile_cons]

theorem commonSplit_head (sep : Char) (s : String) :
    ∃ ts, commonSplit sep s = String.mk (s.data.takeWhile (fun c => c ≠ sep)) :: ts := by
  obtain ⟨ts, hts⟩ := splitChars_head sep s.data
  exact ⟨ts.map (fun cs => ⟨cs⟩), by simp [commonSplit, hts]⟩

theorem takeWhile_no_sep (sep : Char) (cs : List Char) :
    sep ∉ cs.takeWhile (fun c => c ≠ sep) := by
  intro h
  have h2 := List.mem_takeWhile_imp h
  simp at h2

theorem decodeToken_no_colon (b64 : String → String) (auth : String) :
    ':' ∉ (decodeTokenFromBasicAuth b64 auth).data := by
  unfold decodeTokenFromBasicAuth
  rcases hsp : commonSplit ' ' auth with _ | ⟨scheme, _ | ⟨value, _ | ⟨x, rest⟩⟩⟩
  · simp
  · simp
  · dsimp only
    by_cases hs : scheme = "Basic"
    · rw [if_pos hs]
      obtain ⟨ts, hts⟩ := commonSplit_head ':' (b64 value)
      rw [hts]
      exact takeWhile_no_sep ':' (b64 value).data
    · rw [if_neg hs]
      simp
  · simp

theorem decodeToken_wellformed (b64 : String → String) (auth value : String)
    (h : commonSplit ' ' auth = ["Basic", value]) :
    decodeTokenFromBasicAuth b64 auth =
      String.mk ((b64 value).data.takeWhile (fun c => c ≠ ':')) := by
  unfold decodeTokenFromBasicAuth
  rw [h]
  dsimp only
  rw [if_pos rfl]
  obtain ⟨ts, hts⟩ := commonSplit_head ':' (b64 value)
  rw [hts]

theorem decodeToken_malformed (b64 : String → String) (auth : String)
    (h : ∀ value, commonSplit ' ' auth ≠ ["Basic", value]) :
    decodeTokenFromBasicAuth b64 auth = "" := by
  unfold decodeTokenFromBasicAuth
  rcases hsp : commonSplit ' ' auth with _ | ⟨scheme, _ | ⟨value, _ | ⟨x, rest⟩⟩⟩
  · rfl
  · rfl
  · dsimp only
    by_cases hs : scheme = "Basic"
    · exact absurd (hs ▸ hsp) (h value)
    · rw [if_neg hs]
  · rfl

theorem nameKeyInv_storePut {α : Type} [DecidableEq α] {s : Store α} {k : α × String}
    {v : TaskContent} (hs : NameKeyInv s) (hv : v.name = k.2) :
    NameKeyInv (storePut s k v) := by
  intro e he
  rcases mem_storePut s k v e he with h1 | h1
  · rw [h1]
    exact hv
  · exact hs e h1

theorem nameKeyInv_create {α : Type} [DecidableEq α] {s : Store α} (o : α) (c : TaskContent)
    (hs : NameKeyInv s) : NameKeyInv (workerCreate s o c).2.2 := by
  unfold workerCreate
  by_cases hn : c.name = ""
  · simpa [hn] using hs
  · simp only [hn, if_neg hn]
    exact nameKeyInv_storePut hs rfl

theorem nameKeyInv_revise {α : Type} [DecidableEq α] {s : Store α} (o : α) (k : String)
    (c : TaskContent) (hs : NameKeyInv s) : NameKeyInv (workerRevise s o k c).2 := by
  unfold workerRevise
  rcases hget : storeGet s (o, k) with _ | r
  · simpa using hs
  · simp only []
    refine nameKeyInv_storePut hs ?_
    exact hs ((o, k), r) (storeGet_mem s (o, k) r hget)

theorem nameKeyInv_delete {α : Type} [DecidableEq α] {s : Store α} (o : α) (k : String)
    (hs : NameKeyInv s) : NameKeyInv (workerDelete s o k).2 := by
  unfold workerDelete
  by_cases he : existsKey s (o, k) = true
  · simp only [he, if_pos rfl]
    intro e hmem
    exact hs e (mem_storeDelete s (o, k) e hmem)
  · have hf : existsKey s (o, k) = false := by
      revert he
      cases existsKey s (o, k) <;> simp
    simp only [hf]
    simpa using hs

theorem validate_false_of_unknown_email (users : List UserInfo) (e p : String)
    (h : DuplicatedEmail users { email := e } = false) :
    usersValidate users { email := e, passwd := p } = false := by
  unfold DuplicatedEmail at h
  unfold usersValidate
  rw [List.any_eq_false] at h ⊢
  intro x hx
  have h2 := h x hx
  simp only [Bool.and_eq_true, decide_eq_true_eq] at h2 ⊢
  intro h3
  exact absurd h3.1 (by simpa using h2)

/-- C1: a Create call on the Resource Worker (either instantiation) never
fails because of a name collision: when the requested name's derived key is
taken, the worker probes the numeric-suffix candidates in order and takes
the first free one; the accepted name is stored and returned to the caller
as the assigned name, and two creates both requesting "x" under one owner
are assigned "x" and "x-1". -/
theorem create_resolves_collisions :
    (∀ {α : Type} [DecidableEq α] (s : Store α) (o : α) (c : TaskContent),
      c.name ≠ "" →
        (workerCreate s o c).1 = returnCode.SUCCESS ∧
        (∃ i, (workerCreate s o c).2.1 = candidate c.name i ∧
          existsKey s (o, candidate c.name i) = false ∧
          ∀ j < i, existsKey s (o, candidate c.name j) = true) ∧
        storeGet (workerCreate s o c).2.2 (o, (workerCreate s o c).2.1) =
          some { c with name := (workerCreate s o c).2.1 }) ∧
    (∀ (s : Store String) (user : String) (b : JsonBody) (nm : String),
      b.name = some nm → nm ≠ "" →
        ∃ n s₂, taskListsCreateH s user (some b) =
            ({ status := 200, msg := "success", name := some n }, s₂) ∧
          existsKey s (user, n) = false ∧ storeGet s₂ (user, n) ≠ none) ∧
    ((taskListsCreateH [] "u" (some { name := some "x" })).1.name = some "x" ∧
      (taskListsCreateH (taskListsCreateH [] "u" (some { name := some "x" })).2 "u"
        (some { name := some "x" })).1.name = some "x-1") := by
  have hgen : ∀ {α : Type} [DecidableEq α] (s : Store α) (o : α) (c : TaskContent),
      c.name ≠ "" →
        (workerCreate s o c).1 = returnCode.SUCCESS ∧
        (∃ i, (workerCreate s o c).2.1 = candidate c.name i ∧
          existsKey s (o, candidate c.name i) = false ∧
          ∀ j < i, existsKey s (o, candidate c.name j) = true) ∧
        storeGet (workerCreate s o c).2.2 (o, (workerCreate s o c).2.1) =
          some { c with name := (workerCreate s o c).2.1 } := by
    intro α inst s o c hn
    obtain ⟨hfree, hleast⟩ := assignedIdx_spec s o c.name
    unfold workerCreate
    rw [if_neg hn]
    refine ⟨rfl, ⟨assignedIdx s o c.name, rfl, hfree, hleast⟩, ?_⟩
    exact storeGet_storePut_same s _ _
  refine ⟨hgen, ?_, by decide⟩
  intro s user b nm hb hn
  obtain ⟨hsucc, ⟨i, hi, hfree, hleast⟩, hstored⟩ :=
    hgen s user ⟨nm, b.content.getD "", b.date.getD ""⟩ (by simpa using hn)
  refine ⟨(workerCreate s user ⟨nm, b.content.getD "", b.date.getD ""⟩).2.1,
    (workerCreate s user ⟨nm, b.content.getD "", b.date.getD ""⟩).2.2, ?_, ?_, ?_⟩
  · unfold taskListsCreateH
    dsimp only
    rw [hb]
    dsimp only
    rw [hsucc]
    simp
  · rw [hi]
    exact hfree
  · rw [hstored]
    simp

/-- Witness for C1 at a concrete input: creating "x" under owner "u" in the
empty store succeeds. -/
theorem create_resolves_collisions_witness :
    (workerCreate ([] : Store String) "u" ⟨"x", "", ""⟩).1 = returnCode.SUCCESS :=
  (create_resolves_collisions.1 ([] : Store String) "u" ⟨"x", "", ""⟩ (by decide)).1

/-- C2: a Revise whose patch carries a name different from the addressed
child key fails with the explicit name-cannot-be-changed error before any
store write — the store is returned unchanged — in both the task-list and
the task instantiation. -/
theorem revise_rejects_name_change :
    (∀ (s : Store String) (user key : String) (b : JsonBody) (n : String),
      b.name = some n → n ≠ key →
        taskListsUpdateH s user key (some b) =
          ({ status := 500, msg := "failed tasklist name can not be changed" }, s)) ∧
    (∀ (s : Store (String × String)) (user tl key : String) (b : JsonBody) (n : String),
      tl ≠ "" → b.name = some n → n ≠ key →
        tasksUpdateH s user tl key (some b) =
          ({ status := 500, msg := "failed task name can not be changed" }, s)) := by
  constructor
  · intro s user key b n hb hn
    unfold taskListsUpdateH
    dsimp only
    have hcond : b.name.isSome ∧ b.name ≠ some key := by
      rw [hb]
      exact ⟨rfl, by simpa using hn⟩
    rw [if_pos hcond]
  · intro s user tl key b n htl hb hn
    unfold tasksUpdateH
    rw [if_neg htl]
    dsimp only
    have hcond : b.name.isSome ∧ b.name ≠ some key := by
      rw [hb]
      exact ⟨rfl, by simpa using hn⟩
    rw [if_pos hcond]

/-- Witness for C2 at a concrete input: patching the name "a" to "b". -/
theorem revise_rejects_name_change_witness :
    taskListsUpdateH [] "u" "a" (some { name := some "b" }) =
      ({ status := 500, msg := "failed tasklist name can not be changed" }, []) :=
  revise_rejects_name_change.1 [] "u" "a" { name := some "b" } "b" rfl (by decide)

/-- C3: Revise merges only the content and date fields; a field absent from
the patch keeps its stored value.  With stored record r and a patch
carrying only a (non-empty) date d2, the call succeeds, the record becomes
(r.name, r.content, d2), and every other key is untouched. -/
theorem revise_partial_update :
    ∀ (s : Store String) (user key d2 : String) (r : TaskContent),
      storeGet s (user, key) = some r → d2 ≠ "" →
        taskListsUpdateH s user key (some { date := some d2 }) =
          ({ status := 200, msg := "success" },
            storePut s (user, key) ⟨r.name, r.content, d2⟩) ∧
        storeGet (taskListsUpdateH s user key (some { date := some d2 })).2 (user, key) =
          some ⟨r.name, r.content, d2⟩ ∧
        (∀ k', k' ≠ (user, key) →
          storeGet (taskListsUpdateH s user key (some { date := some d2 })).2 k' =
            storeGet s k') := by
  intro s user key d2 r hget hd
  have hrev : workerRevise s user key ⟨"", "", d2⟩ =
      (returnCode.SUCCESS, storePut s (user, key) ⟨r.name, r.content, d2⟩) := by
    unfold workerRevise
    rw [hget]
    dsimp only
    rw [if_pos rfl, if_neg hd]
  have hmain : taskListsUpdateH s user key (some { date := some d2 }) =
      ({ status := 200, msg := "success" },
        storePut s (user, key) ⟨r.name, r.content, d2⟩) := by
    unfold taskListsUpdateH
    dsimp only
    rw [if_neg (by simp)]
    simp only [Option.getD_none, Option.getD_some]
    rw [hrev]
    simp
  refine ⟨hmain, ?_, ?_⟩
  · rw [hmain]
    exact storeGet_storePut_same s (user, key) ⟨r.name, r.content, d2⟩
  · intro k' hk
    rw [hmain]
    exact storeGet_storePut_ne s (user, key) k' ⟨r.name, r.content, d2⟩ hk

/-- Witness for C3 at a concrete input: stored (c1, d1), patch date d2. -/
theorem revise_partial_update_witness :
    taskListsUpdateH [(("u", "a"), ⟨"a", "c1", "d1"⟩)] "u" "a"
        (some { date := some "d2" }) =
      ({ status := 200, msg := "success" },
        storePut [(("u", "a"), ⟨"a", "c1", "d1"⟩)] ("u", "a") ⟨"a", "c1", "d2"⟩) :=
  (revise_partial_update [(("u", "a"), ⟨"a", "c1", "d1"⟩)] "u" "a" "d2" ⟨"a", "c1", "d1"⟩
    (by decide) (by decide)).1

/-- C4: Resolve verifies signature and expiry and returns the embedded
email on success; signature mismatch, malformed token, or expiry yield the
empty (invalid) result; a missing or malformed Authorization header on an
authenticated call produces the uniform authentication failure — all the
embedded functions are total, so no input can raise. -/
theorem token_resolution_safe :
    (∀ (secret : String) (now : Nat) (t : JwtToken),
      t.sig = jwtSign secret t.claims → now < t.claims.exp →
        decodeEmailFromToken secret now (some t) = t.claims.email) ∧
    (∀ (secret : String) (now : Nat) (t : JwtToken),
      t.sig ≠ jwtSign secret t.claims → decodeEmailFromToken secret now (some t) = "") ∧
    (∀ (secret : String) (now : Nat) (t : JwtToken),
      t.claims.exp ≤ now → decodeEmailFromToken secret now (some t) = "") ∧
    (∀ (secret : String) (now : Nat), decodeEmailFromToken secret now none = "") ∧
    (∀ (parse : String → Option JwtToken) (b64 : String → String) (secret : String)
      (now : Nat), checkRequestToken parse b64 secret now none = .error authFailResp) ∧
    (∀ (parse : String → Option JwtToken) (b64 : String → String) (secret : String)
      (now : Nat) (hdr : String), parse "" = none →
        (∀ value, commonSplit ' ' hdr ≠ ["Basic", value]) →
        checkRequestToken parse b64 secret now (some hdr) = .error authFailResp) := by
  refine ⟨?_, ?_, ?_, ?_, ?_, ?_⟩
  · intro secret now t h1 h2
    unfold decodeEmailFromToken
    dsimp only
    rw [if_pos ⟨h1, h2⟩]
  · intro secret now t h1
    unfold decodeEmailFromToken
    dsimp only
    rw [if_neg (fun hc => h1 hc.1)]
  · intro secret now t h1
    unfold decodeEmailFromToken
    dsimp only
    rw [if_neg (fun hc => absurd hc.2 (by omega))]
  · intro secret now
    rfl
  · intro parse b64 secret now
    rfl
  · intro parse b64 secret now hdr hp hmal
    unfold checkRequestToken
    dsimp only
    rw [decodeToken_malformed b64 hdr hmal, hp]
    rfl

/-- Witness for C4 at concrete inputs: a well-signed fresh token resolves
to its email, and a header that is not a two-part Basic credential is
answered with the uniform authentication failure. -/
theorem token_resolution_safe_witness :
    decodeEmailFromToken "k" 5 (some ⟨⟨"a@b", 9⟩, jwtSign "k" ⟨"a@b", 9⟩⟩) = "a@b" ∧
    checkRequestToken (fun _ => none) (fun v => v) "k" 5 (some "junk") =
      .error authFailResp := by
  constructor
  · exact token_resolution_safe.1 "k" 5 ⟨⟨"a@b", 9⟩, jwtSign "k" ⟨"a@b", 9⟩⟩ rfl (by decide)
  · refine token_resolution_safe.2.2.2.2.2 (fun _ => none) (fun v => v) "k" 5 "junk" rfl ?_
    intro value h
    rw [show commonSplit ' ' "junk" = ["junk"] from by decide] at h
    exact absurd (congrArg List.length h) (by simp)

/-- C5: a failed login yields the identical uniform failure response
whether the email is unknown or the password is wrong, so the two failure
causes are indistinguishable to the caller. -/
theorem login_uniform_failure :
    ∀ (users : List UserInfo) (secret : String) (now : Nat) (e1 p1 e2 p2 : String),
      e1 ≠ "" → p1 ≠ "" → e2 ≠ "" → p2 ≠ "" →
      DuplicatedEmail users { email := e1 } = false →
      usersValidate users { email := e2, passwd := p2 } = false →
      usersLoginH users secret now e1 p1 = usersLoginH users secret now e2 p2 ∧
      usersLoginH users secret now e1 p1 =
        { status := 500, msg := "failed user login" } := by
  intro users secret now e1 p1 e2 p2 h1 h2 h3 h4 hunknown hwrong
  have hv1 : usersValidate users { email := e1, passwd := p1 } = false :=
    validate_false_of_unknown_email users e1 p1 hunknown
  have hr1 : usersLoginH users secret now e1 p1 =
      { status := 500, msg := "failed user login" } := by
    unfold usersLoginH
    rw [if_neg (not_or.mpr ⟨h1, h2⟩), hv1]
    simp
  have hr2 : usersLoginH users secret now e2 p2 =
      { status := 500, msg := "failed user login" } := by
    unfold usersLoginH
    rw [if_neg (not_or.mpr ⟨h3, h4⟩), hwrong]
    simp
  exact ⟨hr1.trans hr2.symm, hr1⟩

/-- Witness for C5 at a concrete input: unknown email versus wrong
password against a one-account directory. -/
theorem login_uniform_failure_witness :
    usersLoginH [⟨"n", "a@b", "pw"⟩] "k" 0 "c@d" "q" =
      usersLoginH [⟨"n", "a@b", "pw"⟩] "k" 0 "a@b" "bad" :=
  (login_uniform_failure [⟨"n", "a@b", "pw"⟩] "k" 0 "c@d" "q" "a@b" "bad"
    (by decide) (by decide) (by decide) (by decide) (by decide) (by decide)).1

/-- C6: registration is gated on the duplicate-email probe — it fails (and
leaves the directory unchanged) when the email is present, and otherwise
persists the account; DuplicatedEmail is false before a succeeding Create
and true after it. -/
theorem register_unique_email :
    ∀ (users : List UserInfo) (email passwd nm : String) (b : JsonBody),
      email ≠ "" → passwd ≠ "" → b.name = some nm →
      (DuplicatedEmail users { email := email } = false →
        usersRegisterH users email passwd (some b) =
          ({ status := 200, msg := "success" }, users ++ [⟨nm, email, passwd⟩]) ∧
        DuplicatedEmail (users ++ [⟨nm, email, passwd⟩]) { email := email } = true) ∧
      (DuplicatedEmail users { email := email } = true →
        usersRegisterH users email passwd (some b) =
          ({ status := 500, msg := "failed duplicated email" }, users)) := by
  intro users email passwd nm b he hp hb
  constructor
  · intro hdup
    constructor
    · unfold usersRegisterH
      rw [if_neg (not_or.mpr ⟨he, hp⟩)]
      dsimp only
      rw [hb]
      dsimp only
      rw [hdup]
      simp [usersCreate]
    · unfold DuplicatedEmail
      simp
  · intro hdup
    unfold usersRegisterH
    rw [if_neg (not_or.mpr ⟨he, hp⟩)]
    dsimp only
    rw [hb]
    dsimp only
    rw [hdup]
    simp

/-- Witness for C6 at a concrete input: registering a fresh email into the
empty directory. -/
theorem register_unique_email_witness :
    usersRegisterH [] "a@b" "pw" (some { name := some "n" }) =
      ({ status := 200, msg := "success" }, [⟨"n", "a@b", "pw"⟩]) :=
  ((register_unique_email [] "a@b" "pw" "n" { name := some "n" }
    (by decide) (by decide) rfl).1 (by decide)).1

/-- C7: every task operation addressed with an empty task-list name fails
fast before any store access — the response is independent of the store
and the store is returned unchanged; get, revise and delete are stopped by
the handler guard of api.cpp, list-all and create by the worker's own
scope check. -/
theorem tasks_fail_fast_without_tasklist :
    ∀ (user tl task nm : String) (b : JsonBody), tl = "" → b.name = some nm →
      (∀ s : Store (String × String), tasksGetH s user tl task =
        { status := 500, msg := "failed need tasklist name" }) ∧
      (∀ s : Store (String × String), tasksAllH s user tl =
        { status := 500, msg := "failed internal server error" }) ∧
      (∀ (s : Store (String × String)) (body : Option JsonBody),
        tasksUpdateH s user tl task body =
          ({ status := 500, msg := "failed need tasklist name" }, s)) ∧
      (∀ s : Store (String × String), tasksDeleteH s user tl task =
        ({ status := 500, msg := "failed need tasklist name" }, s)) ∧
      (∀ s : Store (String × String), tasksCreateH s user tl (some b) =
        ({ status := 500, msg := "failed create tasklist" }, s)) := by
  intro user tl task nm b htl hb
  subst htl
  refine ⟨?_, ?_, ?_, ?_, ?_⟩
  · intro s
    unfold tasksGetH
    rw [if_pos rfl]
  · intro s
    unfold tasksAllH tasksWorkerGetAll
    dsimp only
    rw [if_pos rfl]
    rw [if_pos (by decide)]
  · intro s body
    unfold tasksUpdateH
    rw [if_pos rfl]
  · intro s
    unfold tasksDeleteH
    rw [if_pos rfl]
  · intro s
    unfold tasksCreateH
    dsimp only
    rw [hb]
    dsimp only
    unfold tasksWorkerCreate
    dsimp only
    rw [if_pos rfl]
    rw [if_pos (by simp)]

/-- Witness for C7 at a concrete input: a get with an empty task-list
name. -/
theorem tasks_fail_fast_without_tasklist_witness :
    tasksGetH [] "u" "" "t" = { status := 500, msg := "failed need tasklist name" } :=
  (tasks_fail_fast_without_tasklist "u" "" "t" "x" { name := some "x" } rfl rfl).1 []

/-- C8 counterexample: the result the TaskListsGet handler reports for a
NOT_FOUND worker outcome and for an internal store failure is one and the
same response — equal in status code and message — although the two worker
codes are distinct, so these two failure causes are not distinguishable in
the reported result. -/
theorem taskListsGet_response_collapses_codes :
    taskListsGetRespond returnCode.NOT_FOUND {} =
      taskListsGetRespond returnCode.INTERNAL {} ∧
    returnCode.NOT_FOUND ≠ returnCode.INTERNAL := by decide

/-- C8 amended: distinct failure causes are distinguishable by returnCode
at the worker boundary (a query of an absent task-list yields NOT_FOUND,
a code distinct from INTERNAL), but the HTTP handler layer of api.cpp
maps every non-success code to the single identical 500 response, so the
results it reports are distinguishable neither by code nor by message. -/
theorem worker_codes_distinct_handler_uniform :
    (∀ (o child : String), child ≠ "" →
      (workerQuery ([] : Store String) o child).1 = returnCode.NOT_FOUND) ∧
    returnCode.NOT_FOUND ≠ returnCode.INTERNAL ∧
    (∀ (rc : returnCode) (c : TasklistContent), rc ≠ returnCode.SUCCESS →
      taskListsGetRespond rc c =
        { status := 500, msg := "failed internal server error" }) := by
  refine ⟨?_, by decide, ?_⟩
  · intro o child hc
    unfold workerQuery
    rw [if_neg hc]
    rfl
  · intro rc c hrc
    unfold taskListsGetRespond
    rw [if_pos hrc]

/-- Witness for the amended C8 at concrete inputs. -/
theorem worker_codes_distinct_handler_uniform_witness :
    (workerQuery ([] : Store String) "u" "k").1 = returnCode.NOT_FOUND ∧
    taskListsGetRespond returnCode.NOT_FOUND {} =
      { status := 500, msg := "failed internal server error" } :=
  ⟨worker_codes_distinct_handler_uniform.1 "u" "k" (by decide),
   worker_codes_distinct_handler_uniform.2.2 returnCode.NOT_FOUND {} (by decide)⟩

/-- C9: in every reachable store state, each stored record's name field
equals the child key it is stored under — Create stores the assigned name
in both the key and the record, Revise never touches the stored name, and
Delete only removes entries, so the two never diverge. -/
theorem name_equals_key_invariant {α : Type} [DecidableEq α] (s : Store α)
    (h : Reachable s) : NameKeyInv s := by
  induction h with
  | init =>
    intro e he
    simp at he
  | create s o c _ ih => exact nameKeyInv_create o c ih
  | revise s o k c _ ih => exact nameKeyInv_revise o k c ih
  | delete s o k _ ih => exact nameKeyInv_delete o k ih

/-- Witness for C9: the invariant holds of the store reached by one create
from the empty store. -/
theorem name_equals_key_invariant_witness :
    NameKeyInv (workerCreate ([] : Store String) "u" ⟨"x", "", ""⟩).2.2 :=
  name_equals_key_invariant _ (Reachable.create _ _ _ Reachable.init)

/-- C10: the token handed on to verification is exactly the first
colon-segment of the base64-decoded credential; the extracted token never
contains a colon, so a token string containing a colon can never be the
token that is verified; and an empty decoded value yields the empty token
and hence the uniform authentication failure rather than a crash. -/
theorem basic_auth_token_truncated_at_colon :
    (∀ (b64 : String → String) (auth value : String),
      commonSplit ' ' auth = ["Basic", value] →
        decodeTokenFromBasicAuth b64 auth =
          String.mk ((b64 value).data.takeWhile (fun c => c ≠ ':'))) ∧
    (∀ (b64 : String → String) (auth t : String), ':' ∈ t.data →
      decodeTokenFromBasicAuth b64 auth ≠ t) ∧
    (∀ (b64 : String → String) (auth value : String) (parse : String → Option JwtToken)
      (secret : String) (now : Nat),
      commonSplit ' ' auth = ["Basic", value] → b64 value = "" → parse "" = none →
        decodeTokenFromBasicAuth b64 auth = "" ∧
        checkRequestToken parse b64 secret now (some auth) = .error authFailResp) := by
  refine ⟨decodeToken_wellformed, ?_, ?_⟩
  · intro b64 auth t ht heq
    exact decodeToken_no_colon b64 auth (heq ▸ ht)
  · intro b64 auth value parse secret now hsp hdec hp
    have htok : decodeTokenFromBasicAuth b64 auth = "" := by
      rw [decodeToken_wellformed b64 auth value hsp, hdec]
      rfl
    refine ⟨htok, ?_⟩
    unfold checkRequestToken
    dsimp only
    rw [htok, hp]
    rfl

/-- Witness for C10 at a concrete input: a decoded credential "tok:rest"
yields exactly the token "tok". -/
theorem basic_auth_token_truncated_at_colon_witness :
    decodeTokenFromBasicAuth (fun _ => "tok:rest") "Basic abc" =
      String.mk ("tok:rest".data.takeWhile (fun c => c ≠ ':')) :=
  basic_auth_token_truncated_at_colon.1 (fun _ => "tok:rest") "Basic abc" "abc"
    (by decide)
